import Mathlib

/-!
Verification of the Fornjot B-rep kernel against its specification.

The Rust sources are shallowly embedded: `f64` scalars become `ℝ`,
vectors become explicit coordinate structures, fallible operations
return `Option`/`Except`, store-assigned identities become natural
numbers handed out by an explicit counter, and `Vec`/`HashSet` become
`List` (read with set membership).  Each definition names the source
item it embeds.
-/

namespace Fornjot

/-- A 3-dimensional vector / point (`fj_math::Vector<3>` / `Point<3>`,
both are triples of `f64` scalars, embedded as `ℝ`). -/
structure Vec3 where
  x : ℝ
  y : ℝ
  z : ℝ

namespace Vec3

/-- Componentwise addition (`fj_math` vector addition). -/
def add (a b : Vec3) : Vec3 := ⟨a.x + b.x, a.y + b.y, a.z + b.z⟩

/-- Componentwise subtraction. -/
def sub (a b : Vec3) : Vec3 := ⟨a.x - b.x, a.y - b.y, a.z - b.z⟩

/-- Scalar multiple. -/
def smul (s : ℝ) (a : Vec3) : Vec3 := ⟨s * a.x, s * a.y, s * a.z⟩

/-- Dot product (`Vector::dot`). -/
def dot (a b : Vec3) : ℝ := a.x * b.x + a.y * b.y + a.z * b.z

/-- Cross product (`Vector::cross`). -/
def cross (a b : Vec3) : Vec3 :=
  ⟨a.y * b.z - a.z * b.y, a.z * b.x - a.x * b.z, a.x * b.y - a.y * b.x⟩

/-- Magnitude (`Vector::magnitude`). -/
noncomputable def magnitude (a : Vec3) : ℝ := Real.sqrt (a.dot a)

/-- Euclidean distance between two points. -/
noncomputable def distance (a b : Vec3) : ℝ := (a.sub b).magnitude

end Vec3

/-! ## Circle approximation (`src/src/kernel/geometry/curves/circle.rs`)

The old-kernel `Circle` stores a center (`Point<3>`) and a radius
vector (`Vector<2>`). -/

namespace OldKernel

/-- Embeds `Circle` from `src/src/kernel/geometry/curves/circle.rs`. -/
structure Circle where
  center : Vec3
  radius : ℝ × ℝ

namespace Circle

/-- Embeds `Circle::number_of_vertices` (circle.rs, lines 96–105).  The Rust
function asserts `tolerance > 0`; all theorems about it carry that
assumption.  `Scalar::ceil().into_u64()` is embedded as `Int.ceil`
followed by `Int.toNat`. -/
noncomputable def number_of_vertices (tolerance radius : ℝ) : ℕ :=
  if tolerance > radius / 2 then 3
  else (⌈Real.pi / Real.arccos (1 - tolerance / radius)⌉).toNat

/-- Magnitude of the 2-dimensional radius vector. -/
noncomputable def radiusMagnitude (c : Circle) : ℝ :=
  Real.sqrt (c.radius.1 * c.radius.1 + c.radius.2 * c.radius.2)

/-- Embeds `Circle::point_curve_to_model` composed with
`vector_curve_to_model` (circle.rs): the point at a given curve
angle. -/
noncomputable def point_curve_to_model (c : Circle) (angle : ℝ) : Vec3 :=
  let radius := c.radiusMagnitude
  c.center.add ⟨Real.cos angle * radius, Real.sin angle * radius, 0⟩

/-- Embeds `Circle::approx` (circle.rs): the vertices of the approximating
regular polygon, in order. -/
noncomputable def approx (c : Circle) (tolerance : ℝ) : List Vec3 :=
  let n := number_of_vertices tolerance c.radiusMagnitude
  (List.range n).map fun i =>
    c.point_curve_to_model (2 * Real.pi / (n : ℝ) * (i : ℝ))

end Circle

/-- Embeds `Line` from `src/src/kernel/geometry/curves/line.rs`. -/
structure Line where
  origin : Vec3
  direction : Vec3

/-- The old-kernel curve enum.  Modelled from the spec: the enum
itself (`src/src/kernel/geometry/curves/mod.rs`) is not under `src/`;
per the spec a curve is a line or a circle. -/
inductive Curve where
  | line (line : Line)
  | circle (circle : Circle)

/-- Embeds `Curve::approx`.  Modelled from the spec: the dispatching method
is not under `src/`.  Per the spec, a line is exact — no intermediate
points beyond its endpoints — and a circle samples its approximating
polygon (`Circle::approx`, which is under `src/`). -/
noncomputable def Curve.approx (c : Curve) (tolerance : ℝ) : List Vec3 :=
  match c with
  | .line _ => []
  | .circle c => Circle.approx c tolerance

/-- Embeds `Vertex` from the old kernel's topology.  Modelled from the spec:
`src/src/kernel/topology/vertices.rs` is not under `src/`; per the
usage in approximation.rs a vertex yields its 3D point via
`Vertex::point`. -/
structure Vertex where
  point : Vec3

/-- Embeds `Edge` from the old kernel's topology.  Modelled from the spec:
`src/src/kernel/topology/edges.rs` is not under `src/`; per the usage
in approximation.rs an edge has a curve (`Edge::curve`) and an
optional pair of vertices (`Edge::vertices`, `None` for an edge that
connects to itself). -/
structure Edge where
  curve : Curve
  vertices : Option (Vertex × Vertex)

/-- Embeds `Cycle` from the old kernel's topology (modelled from the spec,
as for `Edge`): a list of edges. -/
structure Cycle where
  edges : List Edge

/-- Embeds `Face` from the old kernel's topology (modelled from the spec):
its cycles, as used by `Approximation::for_face`. -/
structure Face where
  cycles : List Cycle

/-- The consecutive pairs of a list: `Vec::windows(2)` as used in
`approximate_edge`. -/
def windows2 {α : Type} : List α → List (α × α)
  | a :: b :: rest => (a, b) :: windows2 (b :: rest)
  | _ => []

/-- Embeds `Approximation` (approximation.rs, lines 13–29).  The two
`HashSet` fields are embedded as lists, read with set membership. -/
structure Approximation where
  points : List Vec3
  segments : List (Vec3 × Vec3)

/-- Embeds `approximate_edge` (approximation.rs, lines 92–131).  With
vertices, the exact endpoint positions are inserted at the start and
end of the sample sequence; without vertices, the first point (if
any) is appended again before segments are formed. -/
def approximate_edge (points : List Vec3) (vertices : Option (Vertex × Vertex)) :
    Approximation :=
  let points := match vertices with
    | some (a, b) => a.point :: points ++ [b.point]
    | none => points
  let segment_points := match vertices with
    | some _ => points
    | none =>
      match points.head? with
      | some p => points ++ [p]
      | none => points
  { points := points, segments := windows2 segment_points }

namespace Approximation

/-- Embeds `Approximation::for_edge` (approximation.rs): sample the curve,
then hand the samples and the edge's vertices to `approximate_edge`. -/
noncomputable def for_edge (edge : Edge) (tolerance : ℝ) : Approximation :=
  approximate_edge (edge.curve.approx tolerance) edge.vertices

/-- Embeds `Approximation::for_cycle` (approximation.rs, lines 47–89 in the
claim's numbering): union of the edge approximations. -/
noncomputable def for_cycle (cycle : Cycle) (tolerance : ℝ) : Approximation :=
  cycle.edges.foldl
    (fun acc edge =>
      let approx := for_edge edge tolerance
      { points := acc.points ++ approx.points,
        segments := acc.segments ++ approx.segments })
    { points := [], segments := [] }

/-- Embeds `Approximation::for_face` (approximation.rs): union of the cycle
approximations. -/
noncomputable def for_face (face : Face) (tolerance : ℝ) : Approximation :=
  face.cycles.foldl
    (fun acc cycle =>
      let approx := for_cycle cycle tolerance
      { points := acc.points ++ approx.points,
        segments := acc.segments ++ approx.segments })
    { points := [], segments := [] }

end Approximation

end OldKernel

/-! ## New-kernel shared geometry (`crates/fj-kernel/src/geometry`)

`surface.rs` / `path.rs` are not under `src/`; the shapes below are
modelled from the spec ("an infinite 2D parameter space embedded in
3D, defined by a swept path (a u path and a v direction)") and from
their uses in `surface_surface.rs` and `sweep/vertex.rs`. -/

namespace Kernel

/-- A line in 3D (`fj_math::Line<3>`): origin and direction. -/
structure Line3 where
  origin : Vec3
  direction : Vec3

/-- A line in 2D (`fj_math::Line<2>`): origin and direction in
surface coordinates. -/
structure Line2 where
  origin : ℝ × ℝ
  direction : ℝ × ℝ

/-- Embeds `GlobalPath` (geometry/path.rs, not under `src/`).  Modelled from
the spec: a path is a line or a circle; only the line variant's data
is needed by the claims, the circle variant marks the unsupported
case of `plane_from_surface`. -/
inductive GlobalPath where
  | line (line : Line3)
  | circle

/-- Embeds `SurfaceGeometry` (geometry/surface.rs, not under `src/`).
Modelled from the spec: a u path and a v direction. -/
structure SurfaceGeometry where
  u : GlobalPath
  v : Vec3

/-- Embeds `SurfacePath` (geometry/path.rs, not under `src/`): the path of a
curve in surface-local coordinates; only the line variant occurs in
the claims. -/
inductive SurfacePath where
  | line (line : Line2)

/-- Embeds `SurfacePath::line_from_points` / `Line::from_points`.  Modelled
from the spec: the line through two surface points, with the first
point as origin and coordinate 1 at the second. -/
def line_from_points (p q : ℝ × ℝ) : Line2 :=
  ⟨p, (q.1 - p.1, q.2 - p.2)⟩

end Kernel

/-! ## Surface/surface intersection
(`crates/fj-kernel/src/algorithms/intersect/surface_surface.rs`) -/

namespace Intersect

open Kernel

/-- Embeds `Surface` as used by the intersection code: its geometry. -/
structure Surface where
  geometry : SurfaceGeometry

/-- Embeds `fj_math::Plane` in parametric form (`Plane::from_parametric`:
origin plus two spanning vectors).  Modelled from the spec: fj-math's
plane.rs is not under `src/`. -/
structure Plane where
  origin : Vec3
  u : Vec3
  v : Vec3

/-- Embeds `plane_from_surface` (surface_surface.rs, lines 70–82): the
surface's u path must be a line, anything else hits `todo!`
(embedded as `none`). -/
def plane_from_surface (surface : Surface) : Option Plane :=
  match surface.geometry.u with
  | .line line => some ⟨line.origin, line.direction, surface.geometry.v⟩
  | .circle => none

/-- Normalization of a vector.  Modelled from the spec (fj-math is
not under `src/`): the vector scaled to unit length. -/
noncomputable def normalize (a : Vec3) : Vec3 :=
  Vec3.smul (1 / a.magnitude) a

/-- Embeds `Plane::constant_normal_form`.  Modelled from the spec: "distance
+ unit normal from its swept-path description" — the unit normal of
the spanning vectors, and the origin's signed distance along it. -/
noncomputable def constant_normal_form (p : Plane) : ℝ × Vec3 :=
  let normal := normalize (p.u.cross p.v)
  (normal.dot p.origin, normal)

/-- Projection of a 3D point into a plane's local 2D coordinates.
Modelled from the spec ("project that 3D line into each surface's
local 2D coordinates"): coordinates along the plane's two spanning
vectors. -/
def project_point (p : Plane) (q : Vec3) : ℝ × ℝ :=
  ((q.sub p.origin).dot p.u, (q.sub p.origin).dot p.v)

/-- Projection of a 3D vector into a plane's local 2D coordinates
(modelled from the spec, as for `project_point`). -/
def project_vector (p : Plane) (w : Vec3) : ℝ × ℝ :=
  (w.dot p.u, w.dot p.v)

/-- Embeds `Plane::project_line` (modelled from the spec): project origin
and direction. -/
def project_line (p : Plane) (l : Line3) : Line2 :=
  ⟨project_point p l.origin, project_vector p l.direction⟩

/-- Componentwise division of a vector by a scalar (`Vector<3> /
Scalar`). -/
noncomputable def divScalar (a : Vec3) (s : ℝ) : Vec3 :=
  ⟨a.x / s, a.y / s, a.z / s⟩

/-- Embeds `Curve` as built by the intersection code (`Curve::new(path,
global_form)`): a surface-local path plus the store identity of its
`GlobalCurve`. -/
structure Curve where
  path : SurfacePath
  global_form : ℕ

/-- Outcome of `SurfaceSurfaceIntersection::compute`: the `todo!`
panic for a non-plane surface, `None`, or the two intersection
curves. -/
inductive SSIOutcome where
  | unsupported
  | noIntersection
  | intersection (curveA curveB : Curve)

/-- Local `direction` of `SurfaceSurfaceIntersection::compute`:
`a_normal.cross(&b_normal)`. -/
noncomputable def ssi_direction (planeA planeB : Plane) : Vec3 :=
  ((constant_normal_form planeA).2).cross (constant_normal_form planeB).2

/-- Local `denom` of `compute`: `direction.dot(&direction)`. -/
noncomputable def ssi_denom (planeA planeB : Plane) : ℝ :=
  (ssi_direction planeA planeB).dot (ssi_direction planeA planeB)

/-- Local `origin` of `compute`:
`(b_normal * a_distance - a_normal * b_distance).cross(&direction) /
denom`. -/
noncomputable def ssi_origin (planeA planeB : Plane) : Vec3 :=
  divScalar
    ((Vec3.sub
        (Vec3.smul (constant_normal_form planeA).1
          (constant_normal_form planeB).2)
        (Vec3.smul (constant_normal_form planeB).1
          (constant_normal_form planeA).2)).cross
      (ssi_direction planeA planeB))
    (ssi_denom planeA planeB)

open Classical in
/-- Embeds `SurfaceSurfaceIntersection::compute` (surface_surface.rs, lines
20–66).  `next` is the id the `GlobalCurve` store would hand to the
next inserted object; the two `GlobalCurve.insert` calls hand out
`next` and `next + 1`. -/
noncomputable def compute (surfaceA surfaceB : Surface) (next : ℕ) : SSIOutcome :=
  match plane_from_surface surfaceA, plane_from_surface surfaceB with
  | some planeA, some planeB =>
    if ssi_denom planeA planeB = 0 then .noIntersection
    else
      let line : Line3 := ⟨ssi_origin planeA planeB, ssi_direction planeA planeB⟩
      .intersection
        ⟨.line (project_line planeA line), next⟩
        ⟨.line (project_line planeB line), next + 1⟩
  | _, _ => .unsupported

/-- The xy-plane as a surface: u along the x-axis, v along the
y-axis. -/
def xySurface : Surface := ⟨⟨.line ⟨⟨0, 0, 0⟩, ⟨1, 0, 0⟩⟩, ⟨0, 1, 0⟩⟩⟩

/-- The xz-plane as a surface: u along the x-axis, v along the
z-axis. -/
def xzSurface : Surface := ⟨⟨.line ⟨⟨0, 0, 0⟩, ⟨1, 0, 0⟩⟩, ⟨0, 0, 1⟩⟩⟩

end Intersect

/-! ## HalfEdge validation (`crates/fj-kernel/src/validate/edge.rs`)

Store handles are embedded as structures carrying their slot id;
handle equality (`Handle::id`) is id equality, per the spec's Object
Store contract. -/

namespace Validate

/-- Handle to a `GlobalCurve`: it carries no data of its own, only
its store identity. -/
structure GlobalCurve where
  id : ℕ

/-- Handle to a `GlobalVertex`; only its identity takes part in the
`HalfEdge` checks. -/
structure GlobalVertex where
  id : ℕ

/-- Handle to a `Curve`: its identity and the `GlobalCurve` it
references (`Curve::global_form`). -/
structure Curve where
  id : ℕ
  global_form : GlobalCurve

/-- Handle to a `SurfaceVertex`: its identity and its `GlobalVertex`
(`SurfaceVertex::global_form`). -/
structure SurfaceVertex where
  id : ℕ
  global_form : GlobalVertex

/-- A `Vertex`: 1D curve position (`Point<1>`, embedded as `ℝ`), its
curve and its surface form. -/
structure Vertex where
  position : ℝ
  curve : Curve
  surface_form : SurfaceVertex

/-- Embeds `VerticesInNormalizedOrder::new`.  Modelled from the spec
(objects/full/edge.rs is not under `src/`): the identity-sorted
ordering of the pair. -/
def normalized_order (p : GlobalVertex × GlobalVertex) :
    GlobalVertex × GlobalVertex :=
  if p.2.id < p.1.id then (p.2, p.1) else (p.1, p.2)

/-- A `GlobalEdge`: its curve and its vertex pair as stored — in
normalized order (`access_in_normalized_order` returns the stored
pair). -/
structure GlobalEdge where
  curve : GlobalCurve
  vertices : GlobalVertex × GlobalVertex

/-- A `HalfEdge`: its two vertices `[back, front]` and its global
form. -/
structure HalfEdge where
  vertices : Vertex × Vertex
  global_form : GlobalEdge

/-- Embeds `HalfEdge::back`. -/
def HalfEdge.back (he : HalfEdge) : Vertex := he.vertices.1

/-- Embeds `HalfEdge::front`. -/
def HalfEdge.front (he : HalfEdge) : Vertex := he.vertices.2

/-- Embeds `HalfEdge::curve`: the curve of its back vertex (the accessor of
the object file, which is not under `src/`; by invariant (1) of the
spec both vertices reference the same curve). -/
def HalfEdge.curve (he : HalfEdge) : Curve := he.back.curve

/-- Embeds `HalfEdgeValidationError` (validate/edge.rs, lines 114–196), with
the diagnostic payloads reduced to the compared identities and
positions. -/
inductive HalfEdgeValidationError where
  | curveMismatch (back_curve front_curve : ℕ)
  | globalCurveMismatch (from_curve from_global_form : ℕ)
  | globalVertexMismatch (from_vertices from_global_form : ℕ × ℕ)
  | verticesAreCoincident (back_position front_position distance : ℝ)

/-- Embeds `ValidationConfig` (validate/mod.rs, lines 120–135). -/
structure ValidationConfig where
  distinct_min_distance : ℝ
  identical_max_distance : ℝ

/-- Embeds `ValidationConfig::default` (validate/mod.rs, lines 137–149):
`5e-7` and `5e-14`. -/
noncomputable def defaultConfig : ValidationConfig :=
  ⟨5 / 10 ^ 7, 5 / 10 ^ 14⟩

/-- Embeds `HalfEdgeValidationError::check_curve_identity`. -/
def check_curve_identity (he : HalfEdge) :
    Except HalfEdgeValidationError Unit :=
  if he.back.curve.id ≠ he.front.curve.id then
    .error (.curveMismatch he.back.curve.id he.front.curve.id)
  else .ok ()

/-- Embeds `HalfEdgeValidationError::check_global_curve_identity`. -/
def check_global_curve_identity (he : HalfEdge) :
    Except HalfEdgeValidationError Unit :=
  let from_curve := he.curve.global_form
  let from_global_form := he.global_form.curve
  if from_curve.id ≠ from_global_form.id then
    .error (.globalCurveMismatch from_curve.id from_global_form.id)
  else .ok ()

/-- Embeds `HalfEdgeValidationError::check_global_vertex_identity`: the two
vertices' global vertices, in normalized order, must match the
global edge's stored pair by identity. -/
def check_global_vertex_identity (he : HalfEdge) :
    Except HalfEdgeValidationError Unit :=
  let from_vertices := normalized_order
    (he.back.surface_form.global_form, he.front.surface_form.global_form)
  let from_global_form := he.global_form.vertices
  if (from_vertices.1.id, from_vertices.2.id)
      ≠ (from_global_form.1.id, from_global_form.2.id) then
    .error (.globalVertexMismatch
      (from_vertices.1.id, from_vertices.2.id)
      (from_global_form.1.id, from_global_form.2.id))
  else .ok ()

open Classical in
/-- Embeds `HalfEdgeValidationError::check_vertex_positions`: the curve
coordinate distance must not be below `distinct_min_distance`. -/
noncomputable def check_vertex_positions (he : HalfEdge)
    (config : ValidationConfig) : Except HalfEdgeValidationError Unit :=
  let distance := |he.back.position - he.front.position|
  if distance < config.distinct_min_distance then
    .error (.verticesAreCoincident he.back.position he.front.position distance)
  else .ok ()

/-- Embeds `Validate::validate_with_config` for `HalfEdge`
(validate/edge.rs, lines 16–34): the four checks in order. -/
noncomputable def validate_with_config (he : HalfEdge)
    (config : ValidationConfig) : Except HalfEdgeValidationError Unit := do
  check_curve_identity he
  check_global_curve_identity he
  check_global_vertex_identity he
  check_vertex_positions he config

/-- A half-edge whose two vertices sit exactly
`distinct_min_distance` apart in curve coordinates, with all
identities coherent. -/
noncomputable def boundaryHalfEdge : HalfEdge :=
  let curve : Curve := ⟨0, ⟨0⟩⟩
  { vertices :=
      (⟨0, curve, ⟨0, ⟨0⟩⟩⟩, ⟨5 / 10 ^ 7, curve, ⟨1, ⟨1⟩⟩⟩),
    global_form := ⟨⟨0⟩, (⟨0⟩, ⟨1⟩)⟩ }

end Validate

/-! ## Sweep of a half-edge into a face: boundary cycle orientation
(`crates/fj-kernel/src/algorithms/sweep/edge.rs`, lines 147–182)

Only the surface-vertex identities of the four boundary edges decide
the orientation repair, so the embedding tracks each `HalfEdge` as
its pair `(back, front)` of `SurfaceVertex` store ids.  The
construction in sweep/edge.rs allocates, in order: the bottom edge's
two fresh surface vertices (`SurfaceVertex::new ... .insert`, one per
input vertex), then one fresh surface vertex per side sweep
(`(Vertex, Surface)` sweep, first for the back vertex, then for the
front vertex); the top edge reuses the side sweeps' end vertices.
With `c0` the surface-vertex store counter, the ids are `c0`
(bottom back), `c0 + 1` (bottom front), `c0 + 2` (side sweep of the
back vertex), `c0 + 3` (side sweep of the front vertex). -/

namespace SweepEdge

/-- Embeds `Reverse for Handle<HalfEdge>` (algorithms/reverse/edge.rs): swap
the vertices. -/
def reverseEdge (e : ℕ × ℕ) : ℕ × ℕ := (e.2, e.1)

/-- One iteration of the orientation-repair loop: compare edge `i`'s
front surface vertex with edge `(i+1) % len`'s back surface vertex,
and reverse the latter edge on mismatch. -/
def repairAt (edges : List (ℕ × ℕ)) (i : ℕ) : List (ℕ × ℕ) :=
  let j := (i + 1) % edges.length
  match edges.get? i, edges.get? j with
  | some ei, some ej =>
    if ei.2 ≠ ej.1 then edges.set j (reverseEdge ej) else edges
  | _, _ => edges

/-- The `while i < edges.len()` repair loop of sweep/edge.rs. -/
def repairWalk (edges : List (ℕ × ℕ)) : List (ℕ × ℕ) :=
  (List.range edges.length).foldl repairAt edges

/-- The boundary cycle `[a, b, c, d]` = `[bottom, side-of-front, top,
side-of-back]` as assembled by sweep/edge.rs before the repair loop,
at surface-vertex granularity: `a = (c0, c0+1)`, `b = (c0+1, c0+3)`
(side sweep reuses the bottom front vertex and ends at its fresh
vertex), `c = (c0+2, c0+3)` (top edge, built from the two side
sweeps' end vertices in `[back, front]` order), `d = (c0, c0+2)`. -/
def assembled_cycle (c0 : ℕ) : List (ℕ × ℕ) :=
  [(c0, c0 + 1), (c0 + 1, c0 + 3), (c0 + 2, c0 + 3), (c0, c0 + 2)]

/-- The exterior cycle of the face produced by sweeping a half-edge:
the assembled cycle after the orientation-repair walk. -/
def swept_cycle (c0 : ℕ) : List (ℕ × ℕ) :=
  repairWalk (assembled_cycle c0)

end SweepEdge

/-! ## Sweep of vertices (`crates/fj-kernel/src/algorithms/sweep/vertex.rs`) -/

namespace Sweep

open Kernel

/-- Handle to a `GlobalCurve`. -/
structure GlobalCurve where
  id : ℕ

/-- A `GlobalVertex`: store identity and 3D position. -/
structure GlobalVertex where
  id : ℕ
  position : Vec3

/-- Identity-sorted order of a global vertex pair
(`VerticesInNormalizedOrder`, modelled from the spec as in
`Validate.normalized_order`). -/
def normalizedPair (p : GlobalVertex × GlobalVertex) :
    GlobalVertex × GlobalVertex :=
  if p.2.id < p.1.id then (p.2, p.1) else (p.1, p.2)

/-- A `GlobalEdge`: identity, curve, and its vertex pair as stored
(normalized). -/
structure GlobalEdge where
  id : ℕ
  curve : GlobalCurve
  vertices : GlobalVertex × GlobalVertex

/-- A `Surface` as used by the sweep code: its geometry. -/
structure Surface where
  geometry : SurfaceGeometry

/-- A `SurfaceVertex`: identity, 2D surface position, surface, global
form. -/
structure SurfaceVertex where
  id : ℕ
  position : ℝ × ℝ
  surface : Surface
  global_form : GlobalVertex

/-- A `Curve` (sweep era): identity, surface, surface-local path,
global form. -/
structure Curve where
  id : ℕ
  surface : Surface
  path : Line2
  global_form : GlobalCurve

/-- A `Vertex`: 1D curve position, curve, surface form. -/
structure Vertex where
  id : ℕ
  position : ℝ
  curve : Curve
  surface_form : SurfaceVertex

/-- A `HalfEdge`: identity, vertices `[back, front]`, global form. -/
structure HalfEdge where
  id : ℕ
  vertices : Vertex × Vertex
  global_form : GlobalEdge

/-- The per-kind store counters (stores.rs keeps one arena per object
kind): each field is the id the next `insert` of that kind hands
out. -/
structure Store where
  global_curves : ℕ
  global_vertices : ℕ
  global_edges : ℕ
  curves : ℕ
  surface_vertices : ℕ
  vertices : ℕ
  half_edges : ℕ

/-- Embeds `SweepCache` (algorithms/sweep/mod.rs, not under `src/`).
Modelled from the spec: a per-invocation cache of swept global
vertices keyed by source vertex identity. -/
structure SweepCache where
  global_vertex : List (ℕ × GlobalVertex)

/-- Cache lookup by source vertex id (`HashMap::entry`). -/
def cacheLookup (cache : SweepCache) (i : ℕ) : Option GlobalVertex :=
  (cache.global_vertex.find? fun p => p.1 = i).map Prod.snd

/-- Result of `Sweep for Handle<GlobalVertex>`: the returned
`(GlobalEdge, [GlobalVertex; 2])` in swept order, plus the updated
cache and store. -/
structure SweptGlobalVertex where
  edge : GlobalEdge
  a : GlobalVertex
  b : GlobalVertex
  cache : SweepCache
  store : Store

/-- Embeds `Sweep for Handle<GlobalVertex>` (sweep/vertex.rs, lines
123–152): insert a fresh `GlobalCurve`; reuse the cached offset
vertex for this source id or insert a fresh one at `position +
path`; insert a `GlobalEdge` over the normalized pair; return the
vertices in swept order `[input, offset]`. -/
def sweep_global_vertex (v : GlobalVertex) (path : Vec3)
    (cache : SweepCache) (s : Store) : SweptGlobalVertex :=
  let curve : GlobalCurve := ⟨s.global_curves⟩
  let s1 := { s with global_curves := s.global_curves + 1 }
  let a := v
  match cacheLookup cache v.id with
  | some b =>
    ⟨⟨s1.global_edges, curve, normalizedPair (a, b)⟩, a, b, cache,
      { s1 with global_edges := s1.global_edges + 1 }⟩
  | none =>
    let b : GlobalVertex := ⟨s1.global_vertices, a.position.add path⟩
    let s2 := { s1 with global_vertices := s1.global_vertices + 1 }
    let cache2 : SweepCache := ⟨cache.global_vertex ++ [(v.id, b)]⟩
    ⟨⟨s2.global_edges, curve, normalizedPair (a, b)⟩, a, b, cache2,
      { s2 with global_edges := s2.global_edges + 1 }⟩

/-- Result of `Sweep for (Handle<Vertex>, Handle<Surface>)`. -/
structure SweptVertexSurface where
  half_edge : HalfEdge
  cache : SweepCache
  store : Store

open Classical in
/-- Embeds `Sweep for (Handle<Vertex>, Handle<Surface>)` (sweep/vertex.rs,
lines 16–121).  The `assert_eq!(path, surface.geometry().v)` abort
is embedded as `none`.  On success: sweep the vertex's global form;
build the curve through surface points `(t, 0)` and `(t, 1)` (`t`
the input vertex's curve coordinate); the output vertices reuse the
input's surface form and a fresh surface vertex at `(t, 1)`, each
vertex's curve coordinate being its surface position's
v-coordinate. -/
noncomputable def sweep_vertex_surface (vertex : Vertex)
    (surface : Surface) (path : Vec3) (cache : SweepCache) (s : Store) :
    Option SweptVertexSurface :=
  if path = surface.geometry.v then
    let r := sweep_global_vertex vertex.surface_form.global_form path cache s
    let t := vertex.position
    let curve : Curve :=
      ⟨r.store.curves, surface, line_from_points (t, 0) (t, 1), r.edge.curve⟩
    let s2 := { r.store with curves := r.store.curves + 1 }
    let sv1 : SurfaceVertex := ⟨s2.surface_vertices, (t, 1), surface, r.b⟩
    let s3 := { s2 with surface_vertices := s2.surface_vertices + 1 }
    let sv0 := vertex.surface_form
    let v0 : Vertex := ⟨s3.vertices, sv0.position.2, curve, sv0⟩
    let v1 : Vertex := ⟨s3.vertices + 1, sv1.position.2, curve, sv1⟩
    let s4 := { s3 with vertices := s3.vertices + 2 }
    some ⟨⟨s4.half_edges, (v0, v1), r.edge⟩, r.cache,
      { s4 with half_edges := s4.half_edges + 1 }⟩
  else none

/-- An input vertex whose surface form does not sit at `(t, 0)`:
curve coordinate `t = 0`, but surface position `(5, 7)`.  Nothing in
`sweep_vertex_surface` rejects it. -/
def skewedVertex : Vertex :=
  let surface : Surface := ⟨⟨.line ⟨⟨0, 0, 0⟩, ⟨1, 0, 0⟩⟩, ⟨0, 0, 1⟩⟩⟩
  let curve : Curve := ⟨0, surface, ⟨(0, 0), (1, 0)⟩, ⟨0⟩⟩
  ⟨0, 0, curve, ⟨0, (5, 7), surface, ⟨0, ⟨0, 0, 0⟩⟩⟩⟩

/-- The surface the skewed vertex is swept on: v direction
`(0, 0, 1)`. -/
def skewedSurface : Surface :=
  ⟨⟨.line ⟨⟨0, 0, 0⟩, ⟨1, 0, 0⟩⟩, ⟨0, 0, 1⟩⟩⟩

/-- The empty sweep cache. -/
def emptyCache : SweepCache := ⟨[]⟩

/-- A store with all counters at zero. -/
def emptyStore : Store := ⟨0, 0, 0, 0, 0, 0, 0⟩

/-- A coherent input vertex: curve coordinate `t = 2` and surface
form at `(2, 0)`. -/
def coherentVertex : Vertex :=
  let surface : Surface := ⟨⟨.line ⟨⟨0, 0, 0⟩, ⟨1, 0, 0⟩⟩, ⟨0, 0, 1⟩⟩⟩
  let curve : Curve := ⟨0, surface, ⟨(0, 0), (1, 0)⟩, ⟨0⟩⟩
  ⟨0, 2, curve, ⟨0, (2, 0), surface, ⟨0, ⟨2, 0, 0⟩⟩⟩⟩

end Sweep

/-! ## Graph-wide uniqueness validation
(`crates/fj-kernel/src/validate/mod.rs`, lines 78–100) -/

namespace Uniqueness

open Classical in
/-- Embeds `uniqueness::validate_vertex` (validate/uniqueness.rs, not under
`src/`).  Modelled from the spec: the vertex fails if any
previously-seen vertex lies closer than `distinct_min_distance`; the
error carries the offending vertex. -/
noncomputable def validate_vertex (v : Vec3) (seen : List Vec3)
    (min_distance : ℝ) : Except Vec3 Unit :=
  if ∃ u ∈ seen, Vec3.distance u v < min_distance then .error v
  else .ok ()

/-- The walk of the blanket `Validate` impl: check each global vertex
against all previously-seen ones, then add it to the seen set. -/
noncomputable def validate_walk_from (min_distance : ℝ) :
    List Vec3 → List Vec3 → Except Vec3 Unit
  | [], _ => .ok ()
  | v :: rest, seen =>
    match validate_vertex v seen min_distance with
    | .error e => .error e
    | .ok _ => validate_walk_from min_distance rest (v :: seen)

/-- Embeds `Validate::validate_with_config` for any object (validate/mod.rs,
lines 78–100), applied to the object's global-vertex iteration
(already deduplicated by `Iter::with`): walk with an initially empty
seen set. -/
noncomputable def validate (global_vertices : List Vec3)
    (min_distance : ℝ) : Except Vec3 Unit :=
  validate_walk_from min_distance global_vertices []

end Uniqueness

/-! ## Transitive object iteration (`crates/fj-kernel/src/iter.rs`)

Every iterator of the `ObjectIters` trait combines the per-child
iterations with `Iter::with` (skip an element already contained —
value equality for plain objects, handle-id equality for handles via
`with_handles` or the id-based `PartialEq` of `Handle`).  Handles
are embedded as structures carrying a store id next to their data.
The geometric payloads of `Surface` (its `SurfaceGeometry`) and of
`Curve` (its `SurfacePath`) live in files not under `src/` and are
modelled from the spec as tags: equal tags stand for equal
payloads.  Positions use `ℚ` so that iteration counts are decidable.
A half-edge's `GlobalEdge` is not among its referenced objects in
iter.rs, so it is omitted here. -/

namespace Iteration

/-- Handle of a `GlobalCurve` (no payload). -/
structure GlobalCurve where
  id : ℕ

/-- Handle of a `GlobalVertex` with its position (the value that
`GlobalVertex`'s derived `PartialEq` compares). -/
structure GlobalVertex where
  id : ℕ
  position : ℚ × ℚ × ℚ

/-- Handle of a `Surface`; `geometry` tags its `SurfaceGeometry`
value. -/
structure Surface where
  id : ℕ
  geometry : ℕ

/-- Handle of a `Curve`: its surface, its surface-local path
(tagged), its global form. -/
structure Curve where
  id : ℕ
  surface : Surface
  path : ℕ
  global_form : GlobalCurve

/-- Handle of a `Vertex`: its curve and its global vertex (the two
objects iter.rs lists as referenced). -/
structure Vertex where
  id : ℕ
  curve : Curve
  global_form : GlobalVertex

/-- Handle of a `HalfEdge`: its two vertices. -/
structure HalfEdge where
  id : ℕ
  vertices : Vertex × Vertex

/-- Accessor `HalfEdge::curve`: the back vertex's curve. -/
def HalfEdge.curve (he : HalfEdge) : Curve := he.vertices.1.curve

/-- Handle of a `Cycle`: its half-edges. -/
structure Cycle where
  id : ℕ
  half_edges : List HalfEdge

/-- Handle of a `Face`: its surface and its exterior cycle (the cube
faces have no interior cycles). -/
structure Face where
  id : ℕ
  surface : Surface
  exterior : Cycle

/-- A `Shell`: its faces. -/
structure Shell where
  faces : List Face

/-- Comparison key of `Curve` values (derived `PartialEq`: surface
handle by id, path by value, global form handle by id). -/
def curveKey (c : Curve) : ℕ × ℕ × ℕ := (c.surface.id, c.path, c.global_form.id)

/-- Comparison key of `GlobalVertex` values: the position. -/
def globalVertexKey (g : GlobalVertex) : ℚ × ℚ × ℚ := g.position

/-- Comparison key of `GlobalCurve` handles (`with_handles`): the
id. -/
def globalCurveKey (g : GlobalCurve) : ℕ := g.id

/-- Comparison key of `HalfEdge` handles (`Handle::eq`): the id. -/
def halfEdgeKey (h : HalfEdge) : ℕ := h.id

/-- Comparison key of `Vertex` handles (`Handle::eq`): the id. -/
def vertexKey (v : Vertex) : ℕ := v.id

/-- Comparison key of `Cycle` values: the half-edge handle list. -/
def cycleKey (cy : Cycle) : List ℕ := cy.half_edges.map HalfEdge.id

/-- Comparison key of `Face` values: surface and exterior handles
(the cube faces share one color). -/
def faceKey (f : Face) : ℕ × ℕ := (f.surface.id, f.exterior.id)

/-- Embeds `Iter::with` / `Iter::with_handles` (iter.rs): push each
element of `other` to the back unless an element with the same key
is already contained. -/
def merge {α κ : Type} [DecidableEq κ] (key : α → κ)
    (acc other : List α) : List α :=
  other.foldl
    (fun acc o => if acc.any fun x => key x = key o then acc else acc ++ [o])
    acc

/-- Combination of child iterations, as the default trait methods do:
start from the empty iterator and `with` each child's result. -/
def mergeAll {α κ : Type} [DecidableEq κ] (key : α → κ)
    (children : List (List α)) : List α :=
  children.foldl (merge key) []

/-! Per-kind iterators.  A kind's own iterator is overridden to yield
just the object (`Iter::from_object`); every other iterator is the
default: merge the referenced objects' iterations.  Referenced
objects (iter.rs): curve → its global form; cycle → its half-edges;
face → its surface and cycles; half-edge → its curve and vertices;
vertex → its curve and its global form; shell → its faces;
global curve, global vertex, surface → nothing. -/

/-- Iterates the curves of a `Vertex`. -/
def Vertex.curveIter (v : Vertex) : List Curve :=
  mergeAll curveKey [[v.curve], []]

/-- Iterates the curves of a `HalfEdge`. -/
def HalfEdge.curveIter (he : HalfEdge) : List Curve :=
  mergeAll curveKey
    [[he.curve], he.vertices.1.curveIter, he.vertices.2.curveIter]

/-- Iterates the curves of a `Cycle`. -/
def Cycle.curveIter (cy : Cycle) : List Curve :=
  mergeAll curveKey (cy.half_edges.map HalfEdge.curveIter)

/-- Iterates the curves of a `Face`. -/
def Face.curveIter (f : Face) : List Curve :=
  mergeAll curveKey [[], f.exterior.curveIter]

/-- Iterates the curves of a `Shell`. -/
def Shell.curveIter (s : Shell) : List Curve :=
  mergeAll curveKey (s.faces.map Face.curveIter)

/-- Iterates the cycles of a `Face`. -/
def Face.cycleIter (f : Face) : List Cycle :=
  mergeAll cycleKey [[], [f.exterior]]

/-- Iterates the cycles of a `Shell`. -/
def Shell.cycleIter (s : Shell) : List Cycle :=
  mergeAll cycleKey (s.faces.map Face.cycleIter)

/-- Iterates the faces of a `Shell`. -/
def Shell.faceIter (s : Shell) : List Face :=
  mergeAll faceKey (s.faces.map fun f => [f])

/-- Iterates the global curves of a `Curve`. -/
def Curve.globalCurveIter (c : Curve) : List GlobalCurve :=
  mergeAll globalCurveKey [[c.global_form]]

/-- Iterates the global curves of a `Vertex`. -/
def Vertex.globalCurveIter (v : Vertex) : List GlobalCurve :=
  mergeAll globalCurveKey [v.curve.globalCurveIter, []]

/-- Iterates the global curves of a `HalfEdge`. -/
def HalfEdge.globalCurveIter (he : HalfEdge) : List GlobalCurve :=
  mergeAll globalCurveKey
    [he.curve.globalCurveIter, he.vertices.1.globalCurveIter,
      he.vertices.2.globalCurveIter]

/-- Iterates the global curves of a `Cycle`. -/
def Cycle.globalCurveIter (cy : Cycle) : List GlobalCurve :=
  mergeAll globalCurveKey (cy.half_edges.map HalfEdge.globalCurveIter)

/-- Iterates the global curves of a `Face`. -/
def Face.globalCurveIter (f : Face) : List GlobalCurve :=
  mergeAll globalCurveKey [[], f.exterior.globalCurveIter]

/-- Iterates the global curves of a `Shell`. -/
def Shell.globalCurveIter (s : Shell) : List GlobalCurve :=
  mergeAll globalCurveKey (s.faces.map Face.globalCurveIter)

/-- Iterates the global vertices of a `Vertex`. -/
def Vertex.globalVertexIter (v : Vertex) : List GlobalVertex :=
  mergeAll globalVertexKey [[], [v.global_form]]

/-- Iterates the global vertices of a `HalfEdge`. -/
def HalfEdge.globalVertexIter (he : HalfEdge) : List GlobalVertex :=
  mergeAll globalVertexKey
    [[], he.vertices.1.globalVertexIter, he.vertices.2.globalVertexIter]

/-- Iterates the global vertices of a `Cycle`. -/
def Cycle.globalVertexIter (cy : Cycle) : List GlobalVertex :=
  mergeAll globalVertexKey (cy.half_edges.map HalfEdge.globalVertexIter)

/-- Iterates the global vertices of a `Face`. -/
def Face.globalVertexIter (f : Face) : List GlobalVertex :=
  mergeAll globalVertexKey [[], f.exterior.globalVertexIter]

/-- Iterates the global vertices of a `Shell`. -/
def Shell.globalVertexIter (s : Shell) : List GlobalVertex :=
  mergeAll globalVertexKey (s.faces.map Face.globalVertexIter)

/-- Iterates the half-edges of a `Cycle`. -/
def Cycle.halfEdgeIter (cy : Cycle) : List HalfEdge :=
  mergeAll halfEdgeKey (cy.half_edges.map fun he => [he])

/-- Iterates the half-edges of a `Face`. -/
def Face.halfEdgeIter (f : Face) : List HalfEdge :=
  mergeAll halfEdgeKey [[], f.exterior.halfEdgeIter]

/-- Iterates the half-edges of a `Shell`. -/
def Shell.halfEdgeIter (s : Shell) : List HalfEdge :=
  mergeAll halfEdgeKey (s.faces.map Face.halfEdgeIter)

/-- Iterates the vertices of a `HalfEdge`. -/
def HalfEdge.vertexIter (he : HalfEdge) : List Vertex :=
  mergeAll vertexKey [[], [he.vertices.1], [he.vertices.2]]

/-- Iterates the vertices of a `Cycle`. -/
def Cycle.vertexIter (cy : Cycle) : List Vertex :=
  mergeAll vertexKey (cy.half_edges.map HalfEdge.vertexIter)

/-- Iterates the vertices of a `Face`. -/
def Face.vertexIter (f : Face) : List Vertex :=
  mergeAll vertexKey [[], f.exterior.vertexIter]

/-- Iterates the vertices of a `Shell`. -/
def Shell.vertexIter (s : Shell) : List Vertex :=
  mergeAll vertexKey (s.faces.map Face.vertexIter)

/-! A redundancy-preserving traversal — what the iteration would
yield if, as the claim's parenthetical says, it preserved every
reference occurrence instead of deduplicating.  This concatenates
the children's results without the containment check of
`Iter::with`. -/

/-- Global-vertex occurrences of a `HalfEdge` without
deduplication. -/
def HalfEdge.globalVertexRaw (he : HalfEdge) : List GlobalVertex :=
  [he.vertices.1.global_form, he.vertices.2.global_form]

/-- Global-vertex occurrences of a `Cycle` without deduplication. -/
def Cycle.globalVertexRaw (cy : Cycle) : List GlobalVertex :=
  (cy.half_edges.map HalfEdge.globalVertexRaw).flatten

/-- Global-vertex occurrences of a `Shell` without deduplication. -/
def Shell.globalVertexRaw (s : Shell) : List GlobalVertex :=
  (s.faces.map fun f => f.exterior.globalVertexRaw).flatten

/-! The unit cube shell.  Modelled from the spec:
`ShellBuilder::create_cube_from_edge_length` (builder/shell.rs) is
not under `src/`.  Per the spec's data model, the cube has 8 corner
positions shared as global vertices, 12 geometric edges shared as
global curves between the two adjacent faces, and per face its own
surface, cycle, 4 half-edges, 4 curves and 8 vertices. -/

/-- Corner positions of the unit cube; corner `i` has coordinates
given by the bits of `i`. -/
def cubeCorners : List (ℚ × ℚ × ℚ) :=
  [(0, 0, 0), (1, 0, 0), (0, 1, 0), (1, 1, 0),
    (0, 0, 1), (1, 0, 1), (0, 1, 1), (1, 1, 1)]

/-- Shared global vertex of corner `i`. -/
def cubeGlobalVertex (i : ℕ) : GlobalVertex :=
  ⟨i, cubeCorners.getD i (0, 0, 0)⟩

/-- The 12 geometric edges as normalized corner pairs; the index in
this list is the shared `GlobalCurve` id. -/
def cubeEdges : List (ℕ × ℕ) :=
  [(0, 1), (1, 3), (2, 3), (0, 2), (4, 5), (5, 7), (6, 7), (4, 6),
    (1, 5), (0, 4), (3, 7), (2, 6)]

/-- Shared global curve id of the edge between two corners. -/
def edgeIndex (a b : ℕ) : ℕ :=
  cubeEdges.findIdx fun p => p = (min a b, max a b)

/-- Corner loops of the 6 faces. -/
def cubeFaceCorners : List (List ℕ) :=
  [[0, 1, 3, 2], [4, 5, 7, 6], [0, 1, 5, 4], [2, 3, 7, 6],
    [0, 2, 6, 4], [1, 3, 7, 5]]

/-- Face `fi`'s own surface. -/
def cubeSurface (fi : ℕ) : Surface := ⟨fi, fi⟩

/-- Half-edge `k` of face `fi`: its own curve (own path, shared
global curve) and two own vertices referencing the shared corner
global vertices. -/
def cubeHalfEdge (fi k : ℕ) : HalfEdge :=
  let corners := cubeFaceCorners.getD fi []
  let a := corners.getD k 0
  let b := corners.getD ((k + 1) % 4) 0
  let curve : Curve := ⟨fi * 4 + k, cubeSurface fi, k, ⟨edgeIndex a b⟩⟩
  ⟨fi * 4 + k,
    (⟨(fi * 4 + k) * 2, curve, cubeGlobalVertex a⟩,
      ⟨(fi * 4 + k) * 2 + 1, curve, cubeGlobalVertex b⟩)⟩

/-- Face `fi` of the cube: its surface and its exterior cycle of 4
half-edges. -/
def cubeFace (fi : ℕ) : Face :=
  ⟨fi, cubeSurface fi,
    ⟨fi, [cubeHalfEdge fi 0, cubeHalfEdge fi 1, cubeHalfEdge fi 2,
      cubeHalfEdge fi 3]⟩⟩

/-- The unit cube shell. -/
def cubeShell : Shell :=
  ⟨[cubeFace 0, cubeFace 1, cubeFace 2, cubeFace 3, cubeFace 4,
    cubeFace 5]⟩

deriving instance DecidableEq for GlobalCurve

deriving instance DecidableEq for GlobalVertex

deriving instance DecidableEq for Surface

deriving instance DecidableEq for Curve

deriving instance DecidableEq for Vertex

deriving instance DecidableEq for HalfEdge

deriving instance DecidableEq for Cycle

deriving instance DecidableEq for Face

end Iteration

/-! # Theorems -/

namespace OldKernel

theorem mem_of_mem_windows2 {α : Type} (s : α × α) :
    ∀ l : List α, s ∈ windows2 l → s.1 ∈ l ∧ s.2 ∈ l := by
  intro l
  induction l with
  | nil => intro h; simp [windows2] at h
  | cons a t ih =>
    cases t with
    | nil => intro h; simp [windows2] at h
    | cons b r =>
      intro h
      rcases List.mem_cons.mp h with h | h
      · subst h
        exact ⟨List.mem_cons_self _ _,
          List.mem_cons_of_mem _ (List.mem_cons_self _ _)⟩
      · have := ih h
        exact ⟨List.mem_cons_of_mem _ this.1, List.mem_cons_of_mem _ this.2⟩

theorem getLast?_cons_append_singleton {α : Type} (x y : α) :
    ∀ l : List α, (x :: l ++ [y]).getLast? = some y := by
  intro l
  induction l generalizing x with
  | nil => rfl
  | cons a t ih =>
    have hshape : x :: (a :: t) ++ [y] = x :: a :: (t ++ [y]) := rfl
    rw [hshape, List.getLast?_cons_cons]
    exact ih a

theorem approximate_edge_segment_endpoints (pts : List Vec3)
    (v : Option (Vertex × Vertex)) (s : Vec3 × Vec3)
    (h : s ∈ (approximate_edge pts v).segments) :
    s.1 ∈ (approximate_edge pts v).points ∧
      s.2 ∈ (approximate_edge pts v).points := by
  cases v with
  | some ab =>
    obtain ⟨a, b⟩ := ab
    exact mem_of_mem_windows2 s _ h
  | none =>
    cases pts with
    | nil => simp [approximate_edge, windows2] at h
    | cons p rest =>
      have h' : s ∈ windows2 ((p :: rest) ++ [p]) := h
      have hm := mem_of_mem_windows2 s _ h'
      have hp : p ∈ p :: rest := List.mem_cons_self _ _
      constructor
      · rcases List.mem_append.mp hm.1 with h1 | h1
        · exact h1
        · simpa using (List.mem_singleton.mp h1 ▸ hp)
      · rcases List.mem_append.mp hm.2 with h1 | h1
        · exact h1
        · simpa using (List.mem_singleton.mp h1 ▸ hp)

theorem segment_endpoints_foldl {β : Type} (f : β → Approximation)
    (H : ∀ e, ∀ s ∈ (f e).segments, s.1 ∈ (f e).points ∧ s.2 ∈ (f e).points) :
    ∀ (l : List β) (init : Approximation),
      (∀ s ∈ init.segments, s.1 ∈ init.points ∧ s.2 ∈ init.points) →
      ∀ s ∈ (l.foldl
          (fun acc e =>
            { points := acc.points ++ (f e).points,
              segments := acc.segments ++ (f e).segments })
          init).segments,
        s.1 ∈ (l.foldl
            (fun acc e =>
              { points := acc.points ++ (f e).points,
                segments := acc.segments ++ (f e).segments })
            init).points ∧
        s.2 ∈ (l.foldl
            (fun acc e =>
              { points := acc.points ++ (f e).points,
                segments := acc.segments ++ (f e).segments })
            init).points := by
  intro l
  induction l with
  | nil => intro init hinit s hs; exact hinit s hs
  | cons e t ih =>
    intro init hinit s hs
    refine ih _ ?_ s hs
    intro s' hs'
    rcases List.mem_append.mp hs' with h | h
    · have := hinit s' h
      exact ⟨List.mem_append_left _ this.1, List.mem_append_left _ this.2⟩
    · have := H e s' h
      exact ⟨List.mem_append_right _ this.1, List.mem_append_right _ this.2⟩

/-- C8: for every edge approximation: with two vertices, the edge's
exact endpoint vertex positions are force-inserted as the first and
last points of the sample sequence; with no vertices
(self-connecting), the first sampled point is appended again so the
polyline closes into a loop; segments connect each consecutive pair
of the resulting point sequence. -/
theorem approximate_edge_spec :
    (∀ (pts : List Vec3) (a b : Vertex),
      (approximate_edge pts (some (a, b))).points
          = a.point :: pts ++ [b.point] ∧
      (approximate_edge pts (some (a, b))).points.head? = some a.point ∧
      (approximate_edge pts (some (a, b))).points.getLast? = some b.point ∧
      (approximate_edge pts (some (a, b))).segments
          = windows2 ((approximate_edge pts (some (a, b))).points)) ∧
    (∀ (p : Vec3) (rest : List Vec3),
      (approximate_edge (p :: rest) none).points = p :: rest ∧
      (approximate_edge (p :: rest) none).segments
          = windows2 ((p :: rest) ++ [p])) := by
  constructor
  · intro pts a b
    refine ⟨rfl, rfl, ?_, rfl⟩
    exact getLast?_cons_append_singleton a.point b.point pts
  · intro p rest
    exact ⟨rfl, rfl⟩

/-- C10: for every approximation produced by for_edge, for_cycle or
for_face, both endpoints of every segment are members of its point
set. -/
theorem approximation_segments_in_points :
    (∀ (edge : Edge) (tolerance : ℝ) (s : Vec3 × Vec3),
      s ∈ (Approximation.for_edge edge tolerance).segments →
      s.1 ∈ (Approximation.for_edge edge tolerance).points ∧
        s.2 ∈ (Approximation.for_edge edge tolerance).points) ∧
    (∀ (cycle : Cycle) (tolerance : ℝ) (s : Vec3 × Vec3),
      s ∈ (Approximation.for_cycle cycle tolerance).segments →
      s.1 ∈ (Approximation.for_cycle cycle tolerance).points ∧
        s.2 ∈ (Approximation.for_cycle cycle tolerance).points) ∧
    (∀ (face : Face) (tolerance : ℝ) (s : Vec3 × Vec3),
      s ∈ (Approximation.for_face face tolerance).segments →
      s.1 ∈ (Approximation.for_face face tolerance).points ∧
        s.2 ∈ (Approximation.for_face face tolerance).points) := by
  have hedge : ∀ (edge : Edge) (tolerance : ℝ) (s : Vec3 × Vec3),
      s ∈ (Approximation.for_edge edge tolerance).segments →
      s.1 ∈ (Approximation.for_edge edge tolerance).points ∧
        s.2 ∈ (Approximation.for_edge edge tolerance).points := by
    intro edge tolerance s hs
    exact approximate_edge_segment_endpoints _ _ s hs
  have hcycle : ∀ (cycle : Cycle) (tolerance : ℝ) (s : Vec3 × Vec3),
      s ∈ (Approximation.for_cycle cycle tolerance).segments →
      s.1 ∈ (Approximation.for_cycle cycle tolerance).points ∧
        s.2 ∈ (Approximation.for_cycle cycle tolerance).points := by
    intro cycle tolerance s hs
    exact segment_endpoints_foldl (fun e => Approximation.for_edge e tolerance)
      (fun e s hs => hedge e tolerance s hs) cycle.edges
      { points := [], segments := [] } (by intro s hs; simp at hs) s hs
  refine ⟨hedge, hcycle, ?_⟩
  intro face tolerance s hs
  exact segment_endpoints_foldl (fun c => Approximation.for_cycle c tolerance)
    (fun c s hs => hcycle c tolerance s hs) face.cycles
    { points := [], segments := [] } (by intro s hs; simp at hs) s hs

/-- Witness for C10: a concrete line edge between (1,2,3) and
(5,8,13); its single segment's endpoints are in its point set. -/
theorem approximation_segments_in_points_witness :
    ((⟨1, 2, 3⟩, ⟨5, 8, 13⟩) : Vec3 × Vec3) ∈
      (Approximation.for_edge
        ⟨.line ⟨⟨0, 0, 0⟩, ⟨1, 0, 0⟩⟩, some (⟨⟨1, 2, 3⟩⟩, ⟨⟨5, 8, 13⟩⟩)⟩
        1).segments ∧
    (⟨1, 2, 3⟩ : Vec3) ∈
      (Approximation.for_edge
        ⟨.line ⟨⟨0, 0, 0⟩, ⟨1, 0, 0⟩⟩, some (⟨⟨1, 2, 3⟩⟩, ⟨⟨5, 8, 13⟩⟩)⟩
        1).points ∧
    (⟨5, 8, 13⟩ : Vec3) ∈
      (Approximation.for_edge
        ⟨.line ⟨⟨0, 0, 0⟩, ⟨1, 0, 0⟩⟩, some (⟨⟨1, 2, 3⟩⟩, ⟨⟨5, 8, 13⟩⟩)⟩
        1).points := by
  have hmem : ((⟨1, 2, 3⟩, ⟨5, 8, 13⟩) : Vec3 × Vec3) ∈
      (Approximation.for_edge
        ⟨.line ⟨⟨0, 0, 0⟩, ⟨1, 0, 0⟩⟩, some (⟨⟨1, 2, 3⟩⟩, ⟨⟨5, 8, 13⟩⟩)⟩
        1).segments := by
    show _ ∈ windows2 _
    simp [Approximation.for_edge, approximate_edge, Curve.approx, windows2]
  have := approximation_segments_in_points.1
    ⟨.line ⟨⟨0, 0, 0⟩, ⟨1, 0, 0⟩⟩, some (⟨⟨1, 2, 3⟩⟩, ⟨⟨5, 8, 13⟩⟩)⟩
    1 (⟨1, 2, 3⟩, ⟨5, 8, 13⟩) hmem
  exact ⟨hmem, this.1, this.2⟩

end OldKernel

namespace Iteration

set_option maxRecDepth 8000 in
/-- C9 (as stated, refuted): if transitive iteration preserved
redundant sharing rather than deduplicating, the unit cube's
global-vertex iteration would have one entry per reference
occurrence — 48 of them — yet the iteration yields 8: the iteration
deduplicates. -/
theorem cube_iteration_dedup_counterexample :
    (Shell.globalVertexRaw cubeShell).length = 48 ∧
    (Shell.globalVertexIter cubeShell).length = 8 ∧
    Shell.globalVertexIter cubeShell ≠ Shell.globalVertexRaw cubeShell := by
  decide

set_option maxRecDepth 8000 in
/-- C9 (amended): a Shell constructed as a unit cube yields, under
transitive iteration of referenced objects — which deduplicates
(plain objects by value, handles by store identity) — exactly 6
faces, 6 cycles, 24 half-edges, 24 curves, 12 global curves, 8
global vertices and 48 vertices. -/
theorem cube_iteration_counts :
    (Shell.faceIter cubeShell).length = 6 ∧
    (Shell.cycleIter cubeShell).length = 6 ∧
    (Shell.halfEdgeIter cubeShell).length = 24 ∧
    (Shell.curveIter cubeShell).length = 24 ∧
    (Shell.globalCurveIter cubeShell).length = 12 ∧
    (Shell.globalVertexIter cubeShell).length = 8 ∧
    (Shell.vertexIter cubeShell).length = 48 := by
  decide

end Iteration

namespace SweepEdge

/-- C4: the face resulting from sweeping a half-edge has an exterior
cycle of exactly 4 half-edges in which, after the orientation-repair
walk, every edge's starting surface vertex is identical (by
surface-vertex store identity) to the previous edge's ending surface
vertex; an edge whose start does not match is replaced by its
reversal (here: the top and the back-side edge). -/
theorem swept_cycle_spec (c0 : ℕ) :
    (swept_cycle c0).length = 4 ∧
    swept_cycle c0
      = [(c0, c0 + 1), (c0 + 1, c0 + 3), (c0 + 3, c0 + 2), (c0 + 2, c0)] ∧
    swept_cycle c0
      = [assembled_cycle c0 |>.getD 0 (0, 0),
          assembled_cycle c0 |>.getD 1 (0, 0),
          reverseEdge (assembled_cycle c0 |>.getD 2 (0, 0)),
          reverseEdge (assembled_cycle c0 |>.getD 3 (0, 0))] ∧
    ∀ i, i < 4 →
      ((swept_cycle c0).getD i (0, 0)).1
        = ((swept_cycle c0).getD ((i + 3) % 4) (0, 0)).2 := by
  have h1 : (1 : ℕ) ≠ 0 := by omega
  have hmain : swept_cycle c0
      = [(c0, c0 + 1), (c0 + 1, c0 + 3), (c0 + 3, c0 + 2), (c0 + 2, c0)] := by
    have hrange : List.range ((assembled_cycle c0).length) = [0, 1, 2, 3] := rfl
    rw [swept_cycle, repairWalk, hrange]
    simp only [List.foldl_cons, List.foldl_nil]
    have s0 : repairAt (assembled_cycle c0) 0 = assembled_cycle c0 := by
      simp [repairAt, assembled_cycle]
    have s1 : repairAt (assembled_cycle c0) 1
        = [(c0, c0 + 1), (c0 + 1, c0 + 3), (c0 + 3, c0 + 2), (c0, c0 + 2)] := by
      have hcond : c0 + 3 ≠ c0 + 2 := by omega
      simp [repairAt, assembled_cycle, reverseEdge, hcond]
    have s2 : repairAt
        [(c0, c0 + 1), (c0 + 1, c0 + 3), (c0 + 3, c0 + 2), (c0, c0 + 2)] 2
        = [(c0, c0 + 1), (c0 + 1, c0 + 3), (c0 + 3, c0 + 2), (c0 + 2, c0)] := by
      have hcond : c0 + 2 ≠ c0 := by omega
      simp [repairAt, reverseEdge, hcond]
    have s3 : repairAt
        [(c0, c0 + 1), (c0 + 1, c0 + 3), (c0 + 3, c0 + 2), (c0 + 2, c0)] 3
        = [(c0, c0 + 1), (c0 + 1, c0 + 3), (c0 + 3, c0 + 2), (c0 + 2, c0)] := by
      simp [repairAt, reverseEdge]
    rw [s0, s1, s2, s3]
  refine ⟨by rw [hmain]; rfl, hmain, by rw [hmain]; rfl, ?_⟩
  intro i hi
  interval_cases i <;> rw [hmain] <;> rfl

/-- Witness for C4: the walk at counter 0, adjacency at edge 1. -/
theorem swept_cycle_spec_witness :
    (1 : ℕ) < 4 ∧
    ((swept_cycle 0).getD 1 (0, 0)).1
      = ((swept_cycle 0).getD ((1 + 3) % 4) (0, 0)).2 :=
  ⟨by norm_num, (swept_cycle_spec 0).2.2.2 1 (by norm_num)⟩

end SweepEdge

namespace Sweep

theorem cacheLookup_append_self (l : List (ℕ × GlobalVertex)) (i : ℕ)
    (b : GlobalVertex) (h : cacheLookup ⟨l⟩ i = none) :
    cacheLookup ⟨l ++ [(i, b)]⟩ i = some b := by
  induction l with
  | nil => simp [cacheLookup]
  | cons a t ih =>
    by_cases ha : a.1 = i
    · exfalso
      simp [cacheLookup, List.find?, ha] at h
    · simp only [cacheLookup, List.cons_append, List.find?] at h ⊢
      rw [show (decide (a.1 = i)) = false by simpa using ha] at h ⊢
      exact ih h

/-- C6: sweeping a global vertex returns a global edge plus the two
global vertices in swept order — first the input vertex, then a
vertex at the input position offset by the path — where the offset
vertex is created once per source-vertex identity (a cache miss
inserts it and caches it under the source id; a cache hit reuses it
and inserts nothing), and a fresh global curve is inserted for the
edge, which joins the pair in normalized order. -/
theorem sweep_global_vertex_spec (v : GlobalVertex) (path : Vec3)
    (cache : SweepCache) (s : Store) :
    (sweep_global_vertex v path cache s).a = v ∧
    (sweep_global_vertex v path cache s).edge.curve.id = s.global_curves ∧
    (sweep_global_vertex v path cache s).store.global_curves
      = s.global_curves + 1 ∧
    (sweep_global_vertex v path cache s).edge.vertices
      = normalizedPair (v, (sweep_global_vertex v path cache s).b) ∧
    (cacheLookup cache v.id = none →
      (sweep_global_vertex v path cache s).b
          = ⟨s.global_vertices, v.position.add path⟩ ∧
      (sweep_global_vertex v path cache s).store.global_vertices
          = s.global_vertices + 1 ∧
      cacheLookup (sweep_global_vertex v path cache s).cache v.id
          = some (sweep_global_vertex v path cache s).b) ∧
    (∀ w, cacheLookup cache v.id = some w →
      (sweep_global_vertex v path cache s).b = w ∧
      (sweep_global_vertex v path cache s).cache = cache ∧
      (sweep_global_vertex v path cache s).store.global_vertices
          = s.global_vertices) ∧
    (sweep_global_vertex v path
        (sweep_global_vertex v path cache s).cache
        (sweep_global_vertex v path cache s).store).b
      = (sweep_global_vertex v path cache s).b := by
  rcases hc : cacheLookup cache v.id with _ | w
  · obtain ⟨l⟩ := cache
    have hcached : cacheLookup
        ⟨l ++ [(v.id, (⟨s.global_vertices, v.position.add path⟩ : GlobalVertex))]⟩
        v.id = some ⟨s.global_vertices, v.position.add path⟩ :=
      cacheLookup_append_self l v.id _ hc
    simp [sweep_global_vertex, hc, hcached]
  · simp [sweep_global_vertex, hc]

/-- Witness for C6: sweeping the origin vertex along (0,0,1) from an
empty cache and store. -/
theorem sweep_global_vertex_spec_witness :
    cacheLookup emptyCache 0 = none ∧
    ((sweep_global_vertex ⟨0, ⟨0, 0, 0⟩⟩ ⟨0, 0, 1⟩ emptyCache emptyStore).b
        = ⟨emptyStore.global_vertices, Vec3.add ⟨0, 0, 0⟩ ⟨0, 0, 1⟩⟩ ∧
      (sweep_global_vertex ⟨0, ⟨0, 0, 0⟩⟩ ⟨0, 0, 1⟩ emptyCache
          emptyStore).store.global_vertices
        = emptyStore.global_vertices + 1 ∧
      cacheLookup
          (sweep_global_vertex ⟨0, ⟨0, 0, 0⟩⟩ ⟨0, 0, 1⟩ emptyCache
            emptyStore).cache 0
        = some (sweep_global_vertex ⟨0, ⟨0, 0, 0⟩⟩ ⟨0, 0, 1⟩ emptyCache
            emptyStore).b) :=
  ⟨rfl,
    (sweep_global_vertex_spec ⟨0, ⟨0, 0, 0⟩⟩ ⟨0, 0, 1⟩ emptyCache
      emptyStore).2.2.2.2.1 rfl⟩

end Sweep

namespace Validate

/-- C3 (as stated, refuted): a half-edge whose two vertices sit
exactly `distinct_min_distance` apart — all identities coherent —
validates successfully, although its vertices are not farther apart
than the configured minimum distance; the claim's biconditional
fails at this input. -/
theorem validate_half_edge_counterexample :
    validate_with_config boundaryHalfEdge defaultConfig = .ok () ∧
    ¬ |boundaryHalfEdge.back.position - boundaryHalfEdge.front.position|
        > defaultConfig.distinct_min_distance := by
  constructor
  · have habs : |(5 : ℝ) / 10 ^ 7| = 5 / 10 ^ 7 := abs_of_nonneg (by norm_num)
    simp [validate_with_config, check_curve_identity,
      check_global_curve_identity, check_global_vertex_identity,
      check_vertex_positions, boundaryHalfEdge, defaultConfig,
      normalized_order, HalfEdge.back, HalfEdge.front, HalfEdge.curve,
      Bind.bind, Except.bind, habs]
  · have habs : |boundaryHalfEdge.back.position
        - boundaryHalfEdge.front.position| = 5 / 10 ^ 7 := by
      show |(0 : ℝ) - 5 / 10 ^ 7| = 5 / 10 ^ 7
      rw [abs_sub_comm]
      norm_num
    rw [habs]
    show ¬ (5 : ℝ) / 10 ^ 7 > defaultConfig.distinct_min_distance
    rw [defaultConfig]
    norm_num

/-- C3 (amended): half-edge validation returns Ok exactly when the
two vertices reference the identical curve, that curve's global
curve is identical to the global edge's curve, the vertices' global
vertices in normalized order equal the global edge's stored pair,
and the vertices are at least the configured minimum distance apart
in curve coordinates; otherwise it returns the specific error for
the first failing check, in that order. -/
theorem validate_half_edge_spec (he : HalfEdge) (config : ValidationConfig) :
    (validate_with_config he config = .ok () ↔
      (he.back.curve.id = he.front.curve.id ∧
        he.curve.global_form.id = he.global_form.curve.id ∧
        ((normalized_order (he.back.surface_form.global_form,
            he.front.surface_form.global_form)).1.id,
          (normalized_order (he.back.surface_form.global_form,
            he.front.surface_form.global_form)).2.id)
          = (he.global_form.vertices.1.id, he.global_form.vertices.2.id) ∧
        |he.back.position - he.front.position|
          ≥ config.distinct_min_distance)) ∧
    (he.back.curve.id ≠ he.front.curve.id →
      validate_with_config he config
        = .error (.curveMismatch he.back.curve.id he.front.curve.id)) ∧
    (he.back.curve.id = he.front.curve.id →
      he.curve.global_form.id ≠ he.global_form.curve.id →
      validate_with_config he config
        = .error (.globalCurveMismatch he.curve.global_form.id
            he.global_form.curve.id)) ∧
    (he.back.curve.id = he.front.curve.id →
      he.curve.global_form.id = he.global_form.curve.id →
      ((normalized_order (he.back.surface_form.global_form,
          he.front.surface_form.global_form)).1.id,
        (normalized_order (he.back.surface_form.global_form,
          he.front.surface_form.global_form)).2.id)
        ≠ (he.global_form.vertices.1.id, he.global_form.vertices.2.id) →
      validate_with_config he config
        = .error (.globalVertexMismatch
            ((normalized_order (he.back.surface_form.global_form,
                he.front.surface_form.global_form)).1.id,
              (normalized_order (he.back.surface_form.global_form,
                he.front.surface_form.global_form)).2.id)
            (he.global_form.vertices.1.id, he.global_form.vertices.2.id))) ∧
    (he.back.curve.id = he.front.curve.id →
      he.curve.global_form.id = he.global_form.curve.id →
      ((normalized_order (he.back.surface_form.global_form,
          he.front.surface_form.global_form)).1.id,
        (normalized_order (he.back.surface_form.global_form,
          he.front.surface_form.global_form)).2.id)
        = (he.global_form.vertices.1.id, he.global_form.vertices.2.id) →
      |he.back.position - he.front.position| < config.distinct_min_distance →
      validate_with_config he config
        = .error (.verticesAreCoincident he.back.position he.front.position
            |he.back.position - he.front.position|)) := by
  by_cases h1 : he.back.curve.id = he.front.curve.id
  · by_cases h2 : he.curve.global_form.id = he.global_form.curve.id
    · by_cases h3 : ((normalized_order (he.back.surface_form.global_form,
          he.front.surface_form.global_form)).1.id,
          (normalized_order (he.back.surface_form.global_form,
            he.front.surface_form.global_form)).2.id)
          = (he.global_form.vertices.1.id, he.global_form.vertices.2.id)
      · by_cases h4 : |he.back.position - he.front.position|
            < config.distinct_min_distance
        · have h4' : ¬ config.distinct_min_distance
              ≤ |he.back.position - he.front.position| := not_le.mpr h4
          simp [validate_with_config, check_curve_identity,
            check_global_curve_identity, check_global_vertex_identity,
            check_vertex_positions, Bind.bind, Except.bind, h1, h2, h3, h4,
            h4']
        · have h4' : config.distinct_min_distance
              ≤ |he.back.position - he.front.position| := not_lt.mp h4
          simp [validate_with_config, check_curve_identity,
            check_global_curve_identity, check_global_vertex_identity,
            check_vertex_positions, Bind.bind, Except.bind, h1, h2, h3, h4,
            h4']
      · simp [validate_with_config, check_curve_identity,
          check_global_curve_identity, check_global_vertex_identity,
          check_vertex_positions, Bind.bind, Except.bind, h1, h2, h3]
    · simp [validate_with_config, check_curve_identity,
        check_global_curve_identity, check_global_vertex_identity,
        check_vertex_positions, Bind.bind, Except.bind, h1, h2]
  · simp [validate_with_config, check_curve_identity,
      check_global_curve_identity, check_global_vertex_identity,
      check_vertex_positions, Bind.bind, Except.bind, h1]

/-- Witness for C3: the boundary half-edge is coherent and exactly at
the minimum distance, so validation succeeds. -/
theorem validate_half_edge_spec_witness :
    validate_with_config boundaryHalfEdge defaultConfig = .ok () :=
  (validate_half_edge_spec boundaryHalfEdge defaultConfig).1.mpr
    (by
      refine ⟨rfl, rfl, rfl, ?_⟩
      show |(0 : ℝ) - 5 / 10 ^ 7| ≥ defaultConfig.distinct_min_distance
      have habs : |(0 : ℝ) - 5 / 10 ^ 7| = 5 / 10 ^ 7 := by
        rw [zero_sub, abs_neg]
        exact abs_of_nonneg (by norm_num)
      rw [habs, defaultConfig])

end Validate

namespace Uniqueness

theorem validate_vertex_ok_iff (v : Vec3) (seen : List Vec3)
    (min_distance : ℝ) :
    validate_vertex v seen min_distance = .ok () ↔
      ∀ u ∈ seen, ¬ Vec3.distance u v < min_distance := by
  by_cases h : ∃ u ∈ seen, Vec3.distance u v < min_distance
  · rw [validate_vertex, if_pos h]
    constructor
    · intro hok; exact Except.noConfusion hok
    · intro hall
      obtain ⟨u, hu, hlt⟩ := h
      exact absurd hlt (hall u hu)
  · rw [validate_vertex, if_neg h]
    push_neg at h
    exact iff_of_true rfl fun u hu => not_lt.mpr (h u hu)

theorem validate_walk_from_ok_iff (min_distance : ℝ) :
    ∀ (vs seen : List Vec3),
      validate_walk_from min_distance vs seen = .ok () ↔
        (List.Pairwise (fun a b => ¬ Vec3.distance a b < min_distance) vs ∧
          ∀ x ∈ vs, ∀ u ∈ seen, ¬ Vec3.distance u x < min_distance) := by
  intro vs
  induction vs with
  | nil => intro seen; simp [validate_walk_from]
  | cons v t ih =>
    intro seen
    by_cases hv : ∃ u ∈ seen, Vec3.distance u v < min_distance
    · rw [validate_walk_from, validate_vertex, if_pos hv]
      constructor
      · intro hok; exact Except.noConfusion hok
      · rintro ⟨-, hall⟩
        obtain ⟨u, hu, hlt⟩ := hv
        exact absurd hlt (hall v (List.mem_cons_self _ _) u hu)
    · rw [validate_walk_from, validate_vertex, if_neg hv]
      rw [ih (v :: seen)]
      push_neg at hv
      constructor
      · rintro ⟨hpair, hall⟩
        refine ⟨List.Pairwise.cons ?_ hpair, ?_⟩
        · intro b hb
          exact hall b hb v (List.mem_cons_self _ _)
        · intro x hx u hu
          rcases List.mem_cons.mp hx with rfl | hx
          · exact not_lt.mpr (hv u hu)
          · exact hall x hx u (List.mem_cons_of_mem _ hu)
      · rintro ⟨hpair, hall⟩
        rcases List.pairwise_cons.mp hpair with ⟨hhead, htail⟩
        refine ⟨htail, ?_⟩
        intro x hx u hu
        rcases List.mem_cons.mp hu with rfl | hu
        · exact hhead x hx
        · exact hall x (List.mem_cons_of_mem _ hx) u hu

/-- C7: graph-wide uniqueness validation of the global vertices
reachable from an entity succeeds exactly when no two of them lie
closer than the configured minimum distance (each vertex compared
against all previously seen ones as the graph is walked; a violation
is returned as a structured error value); the default
`distinct_min_distance` is 5e-7. -/
theorem uniqueness_validation_spec :
    (∀ (global_vertices : List Vec3) (min_distance : ℝ),
      validate global_vertices min_distance = .ok () ↔
        List.Pairwise (fun a b => ¬ Vec3.distance a b < min_distance)
          global_vertices) ∧
    Validate.defaultConfig.distinct_min_distance = 5 / 10 ^ 7 := by
  refine ⟨?_, rfl⟩
  intro vs min_distance
  rw [validate, validate_walk_from_ok_iff]
  simp

/-- Witness for C7: two global vertices one unit apart pass with the
default minimum distance. -/
theorem uniqueness_validation_spec_witness :
    validate [⟨0, 0, 0⟩, ⟨1, 0, 0⟩] (5 / 10 ^ 7) = .ok () :=
  (uniqueness_validation_spec.1 [⟨0, 0, 0⟩, ⟨1, 0, 0⟩] (5 / 10 ^ 7)).mpr
    (by
      refine List.pairwise_cons.mpr ⟨?_, List.pairwise_singleton _ _⟩
      intro b hb
      rcases List.mem_singleton.mp hb with rfl
      have hdist : Vec3.distance ⟨0, 0, 0⟩ ⟨1, 0, 0⟩ = 1 := by
        show Real.sqrt _ = 1
        rw [show ((⟨0, 0, 0⟩ : Vec3).sub ⟨1, 0, 0⟩).dot
            ((⟨0, 0, 0⟩ : Vec3).sub ⟨1, 0, 0⟩) = 1 by
          simp [Vec3.sub, Vec3.dot]]
        exact Real.sqrt_one
      rw [hdist]
      norm_num)

end Uniqueness

namespace Sweep

/-- C5 (as stated, refuted): with the sweep path equal to the
surface's defining direction, sweeping a vertex whose surface form
sits at `(5, 7)` — not at `(t, 0)` — produces a half-edge whose
first vertex lies at surface coordinates `(5, 7)`, not `(t, 0)`:
the code reuses the input's surface form unchecked. -/
theorem sweep_vertex_surface_counterexample :
    ((sweep_vertex_surface skewedVertex skewedSurface ⟨0, 0, 1⟩ emptyCache
        emptyStore).map fun r => r.half_edge.vertices.1.surface_form.position)
      = some (5, 7) ∧
    ((5 : ℝ), (7 : ℝ)) ≠ (skewedVertex.position, (0 : ℝ)) := by
  constructor
  · simp only [sweep_vertex_surface]
    split
    · rfl
    · next h => exact absurd rfl h
  · rw [show skewedVertex.position = (0 : ℝ) from rfl]
    intro h
    have := congrArg Prod.fst h
    norm_num at this

/-- C5 (amended): sweeping a (vertex, surface) pair aborts (modelled
as `none`) exactly when the path differs from the surface's defining
sweep direction; under that precondition it returns a half-edge on
that surface whose curve is the line through surface points `(t, 0)`
and `(t, 1)` (`t` the input vertex's curve coordinate), whose second
vertex is a fresh surface vertex at `(t, 1)` with curve coordinate
1, and whose first vertex reuses the input vertex's surface form
(with curve coordinate that form's v-coordinate) — hence lies at
`(t, 0)` whenever the input's surface form does. -/
theorem sweep_vertex_surface_spec (vertex : Vertex) (surface : Surface)
    (path : Vec3) (cache : SweepCache) (s : Store) :
    (sweep_vertex_surface vertex surface path cache s = none ↔
      path ≠ surface.geometry.v) ∧
    (path = surface.geometry.v →
      ((sweep_vertex_surface vertex surface path cache s).map
          fun r => r.half_edge.vertices.1.surface_form)
        = some vertex.surface_form ∧
      ((sweep_vertex_surface vertex surface path cache s).map
          fun r => r.half_edge.vertices.2.surface_form.position)
        = some (vertex.position, 1) ∧
      ((sweep_vertex_surface vertex surface path cache s).map
          fun r => r.half_edge.vertices.1.position)
        = some vertex.surface_form.position.2 ∧
      ((sweep_vertex_surface vertex surface path cache s).map
          fun r => r.half_edge.vertices.2.position) = some 1 ∧
      ((sweep_vertex_surface vertex surface path cache s).map
          fun r => r.half_edge.vertices.1.curve.path)
        = some (Kernel.line_from_points (vertex.position, 0)
            (vertex.position, 1)) ∧
      ((sweep_vertex_surface vertex surface path cache s).map
          fun r => r.half_edge.vertices.1.curve.surface) = some surface ∧
      (vertex.surface_form.position = (vertex.position, 0) →
        ((sweep_vertex_surface vertex surface path cache s).map
            fun r => r.half_edge.vertices.1.surface_form.position)
          = some (vertex.position, 0))) := by
  by_cases hp : path = surface.geometry.v
  · constructor
    · simp only [sweep_vertex_surface, if_pos hp]
      simp [hp]
    · intro _
      simp only [sweep_vertex_surface, if_pos hp]
      refine ⟨rfl, rfl, rfl, rfl, rfl, rfl, ?_⟩
      intro hcoherent
      rw [← hcoherent]
      rfl
  · constructor
    · simp only [sweep_vertex_surface, if_neg hp]
      simp [hp]
    · intro h
      exact absurd h hp

/-- Witness for C5: a coherent vertex (surface form at `(t, 0)` with
`t = 2`) swept along the surface's direction. -/
theorem sweep_vertex_surface_spec_witness :
    ((⟨0, 0, 1⟩ : Vec3) = coherentVertex.curve.surface.geometry.v) ∧
    ((sweep_vertex_surface coherentVertex coherentVertex.curve.surface
        ⟨0, 0, 1⟩ emptyCache emptyStore).map
        fun r => r.half_edge.vertices.1.surface_form)
      = some coherentVertex.surface_form ∧
    ((sweep_vertex_surface coherentVertex coherentVertex.curve.surface
        ⟨0, 0, 1⟩ emptyCache emptyStore).map
        fun r => r.half_edge.vertices.2.surface_form.position)
      = some (coherentVertex.position, 1) ∧
    ((sweep_vertex_surface coherentVertex coherentVertex.curve.surface
        ⟨0, 0, 1⟩ emptyCache emptyStore).map
        fun r => r.half_edge.vertices.1.surface_form.position)
      = some (coherentVertex.position, 0) := by
  have h := (sweep_vertex_surface_spec coherentVertex
    coherentVertex.curve.surface ⟨0, 0, 1⟩ emptyCache emptyStore).2 rfl
  exact ⟨rfl, h.1, h.2.1, h.2.2.2.2.2.2 rfl⟩

end Sweep

namespace Intersect

/-- C1: for plane-type surfaces, surface/surface intersection returns
`None` exactly when the dot product of the cross product of the two
plane normals with itself equals zero — an exact comparison, no
epsilon; otherwise it returns the two local curves obtained by
projecting the line whose direction is `cross(normalA, normalB)` and
whose origin is `(normalB·distanceA − normalA·distanceB) ×
direction / |direction|²`, each referencing its own newly inserted
global curve (ids `next` and `next + 1`, distinct). -/
theorem surface_surface_compute_spec (surfaceA surfaceB : Surface)
    (next : ℕ) (planeA planeB : Plane)
    (hA : plane_from_surface surfaceA = some planeA)
    (hB : plane_from_surface surfaceB = some planeB) :
    ssi_direction planeA planeB
      = ((constant_normal_form planeA).2).cross
          (constant_normal_form planeB).2 ∧
    ssi_origin planeA planeB
      = divScalar
          ((Vec3.sub
              (Vec3.smul (constant_normal_form planeA).1
                (constant_normal_form planeB).2)
              (Vec3.smul (constant_normal_form planeB).1
                (constant_normal_form planeA).2)).cross
            (ssi_direction planeA planeB))
          (ssi_denom planeA planeB) ∧
    (compute surfaceA surfaceB next = .noIntersection ↔
      ssi_denom planeA planeB = 0) ∧
    (ssi_denom planeA planeB ≠ 0 →
      compute surfaceA surfaceB next
        = .intersection
            ⟨.line (project_line planeA
              ⟨ssi_origin planeA planeB, ssi_direction planeA planeB⟩),
              next⟩
            ⟨.line (project_line planeB
              ⟨ssi_origin planeA planeB, ssi_direction planeA planeB⟩),
              next + 1⟩ ∧
      next ≠ next + 1) := by
  refine ⟨rfl, rfl, ?_, ?_⟩
  · by_cases hd : ssi_denom planeA planeB = 0
    · simp [compute, hA, hB, hd]
    · simp [compute, hA, hB, hd]
  · intro hd
    constructor
    · simp [compute, hA, hB, hd]
    · omega

/-- Witness for C1: the xy- and xz-planes are plane-type surfaces, so
the theorem applies to them. -/
theorem surface_surface_compute_spec_witness :
    plane_from_surface xySurface
      = some ⟨⟨0, 0, 0⟩, ⟨1, 0, 0⟩, ⟨0, 1, 0⟩⟩ ∧
    plane_from_surface xzSurface
      = some ⟨⟨0, 0, 0⟩, ⟨1, 0, 0⟩, ⟨0, 0, 1⟩⟩ ∧
    (compute xySurface xzSurface 0 = .noIntersection ↔
      ssi_denom ⟨⟨0, 0, 0⟩, ⟨1, 0, 0⟩, ⟨0, 1, 0⟩⟩
        ⟨⟨0, 0, 0⟩, ⟨1, 0, 0⟩, ⟨0, 0, 1⟩⟩ = 0) :=
  ⟨rfl, rfl,
    (surface_surface_compute_spec xySurface xzSurface 0 _ _ rfl rfl).2.2.1⟩

end Intersect

namespace OldKernel

theorem cos_bound_lower (x b : ℝ) (hx0 : 0 < x) (hxb : x ≤ b)
    (hb1 : b ≤ 1) :
    1 - b ^ 2 / 2 - b ^ 4 * (5 / 96) ≤ Real.cos x := by
  have habs : |x| = x := abs_of_pos hx0
  have hx1 : |x| ≤ 1 := by rw [habs]; linarith
  have hb := Real.cos_bound hx1
  rw [habs] at hb
  have h2 : x ^ 2 ≤ b ^ 2 := pow_le_pow_left₀ (le_of_lt hx0) hxb 2
  have h4 : x ^ 4 ≤ b ^ 4 := pow_le_pow_left₀ (le_of_lt hx0) hxb 4
  have habs2 := abs_le.mp hb
  linarith [habs2.1, habs2.2]

theorem cos_bound_upper (x lo hi : ℝ) (hlo0 : 0 ≤ lo) (hlo : lo ≤ x)
    (hhi : x ≤ hi) (hhi1 : hi ≤ 1) :
    Real.cos x ≤ 1 - lo ^ 2 / 2 + hi ^ 4 * (5 / 96) := by
  have hx0 : 0 ≤ x := le_trans hlo0 hlo
  have habs : |x| = x := abs_of_nonneg hx0
  have hx1 : |x| ≤ 1 := by rw [habs]; linarith
  have hb := Real.cos_bound hx1
  rw [habs] at hb
  have h2 : lo ^ 2 ≤ x ^ 2 := pow_le_pow_left₀ hlo0 hlo 2
  have h4 : x ^ 4 ≤ hi ^ 4 := pow_le_pow_left₀ hx0 hhi 4
  have habs2 := abs_le.mp hb
  linarith [habs2.1, habs2.2]

theorem cos_double_ge (x c : ℝ) (hc0 : 0 ≤ c) (hc : c ≤ Real.cos x) :
    2 * c ^ 2 - 1 ≤ Real.cos (2 * x) := by
  rw [Real.cos_two_mul]
  have h2 : c ^ 2 ≤ Real.cos x ^ 2 := pow_le_pow_left₀ hc0 hc 2
  linarith

theorem cos_pi_div_seven_ge : (9 : ℝ) / 10 ≤ Real.cos (Real.pi / 7) := by
  have hpi_lt : Real.pi < 3.141593 := Real.pi_lt_d6
  have hc28 : (99369 : ℝ) / 100000 ≤ Real.cos (Real.pi / 28) := by
    have h := cos_bound_lower (Real.pi / 28) (1122 / 10000)
      (by positivity) (by linarith) (by norm_num)
    calc (99369 : ℝ) / 100000
        ≤ 1 - ((1122 : ℝ) / 10000) ^ 2 / 2
            - ((1122 : ℝ) / 10000) ^ 4 * (5 / 96) := by norm_num
      _ ≤ Real.cos (Real.pi / 28) := h
  have hc14 : (974839 : ℝ) / 1000000 ≤ Real.cos (Real.pi / 14) := by
    have h := cos_double_ge (Real.pi / 28) (99369 / 100000)
      (by norm_num) hc28
    rw [show 2 * (Real.pi / 28) = Real.pi / 14 by ring] at h
    calc (974839 : ℝ) / 1000000
        ≤ 2 * ((99369 : ℝ) / 100000) ^ 2 - 1 := by norm_num
      _ ≤ Real.cos (Real.pi / 14) := h
  have h := cos_double_ge (Real.pi / 14) (974839 / 1000000)
    (by norm_num) hc14
  rw [show 2 * (Real.pi / 14) = Real.pi / 7 by ring] at h
  calc (9 : ℝ) / 10 ≤ 2 * ((974839 : ℝ) / 1000000) ^ 2 - 1 := by norm_num
    _ ≤ Real.cos (Real.pi / 7) := h

theorem arccos_nine_tenths_lower :
    Real.pi / 7 ≤ Real.arccos (9 / 10) := by
  by_contra h
  push_neg at h
  have hcos := Real.cos_lt_cos_of_nonneg_of_le_pi
    (Real.arccos_nonneg _) (by linarith [Real.pi_pos]) h
  rw [Real.cos_arccos (by norm_num) (by norm_num)] at hcos
  linarith [cos_pi_div_seven_ge]

theorem arccos_nine_tenths_upper :
    Real.arccos (9 / 10) < Real.pi / 6 := by
  by_contra h
  push_neg at h
  have hcos := Real.cos_le_cos_of_nonneg_of_le_pi
    (by positivity) (Real.arccos_le_pi _) h
  rw [Real.cos_arccos (by norm_num) (by norm_num),
    Real.cos_pi_div_six] at hcos
  have h3 : Real.sqrt 3 < 18 / 10 := by
    nlinarith [Real.sq_sqrt (show (0 : ℝ) ≤ 3 by norm_num),
      Real.sqrt_nonneg 3]
  linarith

theorem cos_pi_div_23_ge : (99 : ℝ) / 100 ≤ Real.cos (Real.pi / 23) := by
  have hpi_lt : Real.pi < 3.141593 := Real.pi_lt_d6
  have h := cos_bound_lower (Real.pi / 23) (136592 / 1000000)
    (by positivity) (by linarith) (by norm_num)
  calc (99 : ℝ) / 100
      ≤ 1 - ((136592 : ℝ) / 1000000) ^ 2 / 2
          - ((136592 : ℝ) / 1000000) ^ 4 * (5 / 96) := by norm_num
    _ ≤ Real.cos (Real.pi / 23) := h

theorem cos_pi_div_22_lt : Real.cos (Real.pi / 22) < (99 : ℝ) / 100 := by
  have hpi_lt : Real.pi < 3.141593 := Real.pi_lt_d6
  have hpi_gt : (3.141592 : ℝ) < Real.pi := Real.pi_gt_d6
  have h := cos_bound_upper (Real.pi / 22) (142799 / 1000000)
    (1428 / 10000) (by norm_num) (by linarith) (by linarith)
    (by norm_num)
  calc Real.cos (Real.pi / 22)
      ≤ 1 - ((142799 : ℝ) / 1000000) ^ 2 / 2
          + ((1428 : ℝ) / 10000) ^ 4 * (5 / 96) := h
    _ < (99 : ℝ) / 100 := by norm_num

theorem arccos_99_hundredths_lower :
    Real.pi / 23 ≤ Real.arccos (99 / 100) := by
  by_contra h
  push_neg at h
  have hcos := Real.cos_lt_cos_of_nonneg_of_le_pi
    (Real.arccos_nonneg _) (by linarith [Real.pi_pos]) h
  rw [Real.cos_arccos (by norm_num) (by norm_num)] at hcos
  linarith [cos_pi_div_23_ge]

theorem arccos_99_hundredths_upper :
    Real.arccos (99 / 100) < Real.pi / 22 := by
  by_contra h
  push_neg at h
  have hcos := Real.cos_le_cos_of_nonneg_of_le_pi
    (by positivity) (Real.arccos_le_pi _) h
  rw [Real.cos_arccos (by norm_num) (by norm_num)] at hcos
  linarith [cos_pi_div_22_lt]

theorem arccos_half_eq : Real.arccos (1 / 2) = Real.pi / 3 := by
  rw [show (1 : ℝ) / 2 = Real.cos (Real.pi / 3) from
    Real.cos_pi_div_three.symm]
  exact Real.arccos_cos (by positivity) (by linarith [Real.pi_pos])

theorem ceil_pi_div_arccos_nine_tenths :
    ⌈Real.pi / Real.arccos (9 / 10)⌉ = 7 := by
  have ha_pos : 0 < Real.arccos (9 / 10) :=
    Real.arccos_pos.mpr (by norm_num)
  rw [Int.ceil_eq_iff]
  constructor
  · push_cast
    rw [show ((7 : ℝ) - 1) = 6 by norm_num, lt_div_iff₀ ha_pos]
    linarith [arccos_nine_tenths_upper]
  · push_cast
    rw [div_le_iff₀ ha_pos]
    linarith [arccos_nine_tenths_lower]

theorem ceil_pi_div_arccos_99_hundredths :
    ⌈Real.pi / Real.arccos (99 / 100)⌉ = 23 := by
  have ha_pos : 0 < Real.arccos (99 / 100) :=
    Real.arccos_pos.mpr (by norm_num)
  rw [Int.ceil_eq_iff]
  constructor
  · push_cast
    rw [show ((23 : ℝ) - 1) = 22 by norm_num, lt_div_iff₀ ha_pos]
    linarith [arccos_99_hundredths_upper]
  · push_cast
    rw [div_le_iff₀ ha_pos]
    linarith [arccos_99_hundredths_lower]

/-- C2: for every tolerance greater than zero, the
circle-approximation vertex count is 3 if the tolerance exceeds half
the radius, and otherwise `ceil(π / acos(1 − tolerance/radius))`
with a minimum of 3 (automatic in that branch); in particular
(50, 100) gives 3, (10, 100) gives 7, and (1, 100) gives 23. -/
theorem number_of_vertices_spec :
    (∀ tolerance radius : ℝ, 0 < tolerance →
      Circle.number_of_vertices tolerance radius
        = if tolerance > radius / 2 then 3
          else max 3
            (⌈Real.pi / Real.arccos (1 - tolerance / radius)⌉).toNat) ∧
    Circle.number_of_vertices 50 100 = 3 ∧
    Circle.number_of_vertices 10 100 = 7 ∧
    Circle.number_of_vertices 1 100 = 23 := by
  refine ⟨?_, ?_, ?_, ?_⟩
  · intro t r ht
    rw [Circle.number_of_vertices]
    by_cases hc : t > r / 2
    · rw [if_pos hc, if_pos hc]
    · rw [if_neg hc, if_neg hc]
      push_neg at hc
      have hr : 0 < r := by linarith
      have hy1 : (1 : ℝ) / 2 ≤ 1 - t / r := by
        have htr : t / r ≤ 1 / 2 := by
          rw [div_le_iff₀ hr]
          linarith
        linarith
      have hy2 : 1 - t / r < 1 := by
        have : 0 < t / r := div_pos ht hr
        linarith
      have ha_pos : 0 < Real.arccos (1 - t / r) :=
        Real.arccos_pos.mpr hy2
      have ha_le : Real.arccos (1 - t / r) ≤ Real.pi / 3 := by
        by_contra hgt
        push_neg at hgt
        have hlt := Real.cos_lt_cos_of_nonneg_of_le_pi
          (by positivity) (Real.arccos_le_pi _) hgt
        rw [Real.cos_arccos (by linarith) (by linarith),
          Real.cos_pi_div_three] at hlt
        linarith
      have h3 : (3 : ℝ) ≤ Real.pi / Real.arccos (1 - t / r) := by
        rw [le_div_iff₀ ha_pos]
        linarith
      have hceil : (3 : ℤ) ≤ ⌈Real.pi / Real.arccos (1 - t / r)⌉ := by
        calc (3 : ℤ) = ⌈(3 : ℝ)⌉ := by norm_num
          _ ≤ ⌈Real.pi / Real.arccos (1 - t / r)⌉ := Int.ceil_mono h3
      have h3n : 3 ≤ (⌈Real.pi / Real.arccos (1 - t / r)⌉).toNat := by
        omega
      exact (max_eq_right h3n).symm
  · rw [Circle.number_of_vertices,
      if_neg (by norm_num : ¬((50 : ℝ) > 100 / 2)),
      show (1 : ℝ) - 50 / 100 = 1 / 2 by norm_num, arccos_half_eq,
      show Real.pi / (Real.pi / 3) = 3 by
        rw [div_div_eq_mul_div, mul_comm, mul_div_assoc,
          div_self Real.pi_ne_zero, mul_one]]
    norm_num
    rfl
  · rw [Circle.number_of_vertices,
      if_neg (by norm_num : ¬((10 : ℝ) > 100 / 2)),
      show (1 : ℝ) - 10 / 100 = 9 / 10 by norm_num,
      ceil_pi_div_arccos_nine_tenths]
    rfl
  · rw [Circle.number_of_vertices,
      if_neg (by norm_num : ¬((1 : ℝ) > 100 / 2)),
      show (1 : ℝ) - 1 / 100 = 99 / 100 by norm_num,
      ceil_pi_div_arccos_99_hundredths]
    rfl

/-- Witness for C2: the general formula applied at tolerance 10,
radius 100. -/
theorem number_of_vertices_spec_witness :
    (0 : ℝ) < 10 ∧
    Circle.number_of_vertices 10 100
      = if (10 : ℝ) > 100 / 2 then 3
        else max 3 (⌈Real.pi / Real.arccos (1 - 10 / 100)⌉).toNat :=
  ⟨by norm_num, number_of_vertices_spec.1 10 100 (by norm_num)⟩

end OldKernel

end Fornjot
